import Mathlib

/-!
Verification of the `ncbi_blast` Python package (`ncbi_blast/Blast.py`).

Python strings are modelled as `List Char`; Python dicts of keyword/value
pairs are modelled as association lists `List (List Char × List Char)` in
insertion order (a real Python dict always has distinct keys).  Functions
that can raise are modelled with `Option`/`Except`: `none`/`.error` means
the Python call raises.  Filesystem state and the result of the single
`subprocess.run` call a method makes are abstracted into a `World` record,
since the external BLAST+ binaries are opaque collaborators.
-/

/-- Result of `subprocess.run(...)`: captured stdout, stderr and return code. -/
structure SubprocResult where
  stdout : List Char
  stderr : List Char
  returncode : Int
  deriving DecidableEq, Repr

/-- Ambient state a `Blast` method call observes: `os.path.isfile`,
`os.access(-, os.X_OK)`, the `PATH` environment variable, and the result
the one spawned subprocess of the call would produce. -/
structure World where
  isfile : List Char → Bool
  access_x_ok : List Char → Bool
  pathEnv : List Char
  run : SubprocResult

/-- Kinds of exception the modelled Python code can raise. -/
inductive PyError where
  | assertionError
  | typeError
  deriving DecidableEq, Repr

/-- Python truthy return values of `is_installed`: a bool, or a path string. -/
inductive InstallResult where
  | boolRes (b : Bool)
  | pathRes (p : List Char)
  deriving DecidableEq, Repr

/-- Model of Python `str.rstrip()` restricted to the ASCII whitespace
characters (space, tab, newline, carriage return, vertical tab, form feed). -/
def pyIsSpace (c : Char) : Bool :=
  c == ' ' || c == '\t' || c == '\n' || c == '\r' || c == '\x0b' || c == '\x0c'

/-- Python `s.rstrip()`: remove trailing whitespace. -/
def rstrip (s : List Char) : List Char :=
  (s.reverse.dropWhile pyIsSpace).reverse

/-- Splitting a string at every character satisfying `p`, with the semantics
of Python `re.split` on a single-character class (and of `str.split(sep)`):
adjacent separators or separators at the ends produce empty fields, and the
empty string yields `[[]]`. -/
def splitChars (p : Char → Bool) : List Char → List (List Char)
  | [] => [[]]
  | c :: rest =>
    if p c then [] :: splitChars p rest
    else
      match splitChars p rest with
      | [] => [[c]]
      | t :: ts => (c :: t) :: ts

/-- Python space-join of a token list. -/
def joinSpace : List (List Char) → List Char
  | [] => []
  | [t] => t
  | t :: u :: rest => t ++ ' ' :: joinSpace (u :: rest)

/-- Full match against the regex `\-[a-z_]+` from `Blast.clean_kwargs`:
a leading dash followed by one or more lower-case letters or underscores. -/
def re_valid_kw : List Char → Bool
  | [] => false
  | c :: rest =>
    c == '-' && !rest.isEmpty && rest.all (fun c => ('a' ≤ c && c ≤ 'z') || c == '_')

/-- Full match against the regex `[a-zA-Z0-9\-\.]+` from `Blast.clean_kwargs`:
one or more letters, digits, dashes or dots. -/
def re_valid_arg (s : List Char) : Bool :=
  !s.isEmpty && s.all (fun c =>
    ('a' ≤ c && c ≤ 'z') || ('A' ≤ c && c ≤ 'Z') || ('0' ≤ c && c ≤ '9') || c == '-' || c == '.')

/-- Shell metacharacters named by the specification: space, double quote,
single quote (character code 39), semicolon, dollar sign and slash. -/
def shellMetachars : List Char := [' ', '"', Char.ofNat 39, ';', '$', '/']

/-- Model of `Blast.clean_kwargs`: assert every keyword fully matches
`\-[a-z_]+` and every value fully matches `[a-zA-Z0-9\-\.]+`; on success the
dict is returned unchanged, a failed assertion is `none`. -/
def clean_kwargs (kwargs : List (List Char × List Char)) :
    Option (List (List Char × List Char)) :=
  if kwargs.all (fun p => re_valid_kw p.1 && re_valid_arg p.2) then some kwargs else none

/-- Model of `Blast.kwargs_as_list`: flatten the dict into the list
alternating each keyword with its value, in dict order. -/
def kwargs_as_list : List (List Char × List Char) → List (List Char)
  | [] => []
  | (k, v) :: rest => k :: v :: kwargs_as_list rest

/-- Pair up consecutive elements: `dict(zip(kwargs[::2], kwargs[1::2]))`
builds its pairs this way when the list has even length. -/
def pairUp : List (List Char) → List (List Char × List Char)
  | k :: v :: rest => (k, v) :: pairUp rest
  | _ => []

/-- Python dict insertion: a repeated key keeps its first position but takes
the new value, a fresh key is appended. -/
def dictInsert (d : List (List Char × List Char)) (kv : List Char × List Char) :
    List (List Char × List Char) :=
  if d.any (fun p => p.1 = kv.1) then
    d.map (fun p => if p.1 = kv.1 then (p.1, kv.2) else p)
  else d ++ [kv]

/-- Python `dict(pairs)`: left fold of dict insertion over the pairs. -/
def dictOfPairs (pairs : List (List Char × List Char)) : List (List Char × List Char) :=
  pairs.foldl dictInsert []

/-- Model of `Blast.parse_kwarg_string`: the empty string gives the empty
dict; otherwise split on `[ =]`, assert an even number of tokens, build the
dict of consecutive pairs and clean it. -/
def parse_kwarg_string (s : List Char) : Option (List (List Char × List Char)) :=
  if s = [] then some []
  else if (splitChars (fun c => c == ' ' || c == '=') s).length % 2 ≠ 0 then none
  else clean_kwargs (dictOfPairs (pairUp (splitChars (fun c => c == ' ' || c == '=') s)))

/-- Protein alphabet used by `Blast.is_protein`: the twenty standard
amino-acid letters. -/
def proteinLetters : List Char := "ACDEFGHIKLMNPQRSTVWY".toList

/-- Nucleotide alphabet used by `Blast.is_dna`: `GATC` plus the IUPAC
ambiguity codes. -/
def dnaLetters : List Char := "GATCRYWSMKHBVDN".toList

/-- Model of `Blast.__verify_alphabet`: every letter of the sequence must be
a member of `letters` (a case-sensitive membership test). -/
def verify_alphabet (sequence letters : List Char) : Bool :=
  sequence.all (fun letter => letters.contains letter)

/-- Model of `Blast.is_protein` applied to the records that
`SeqIO.parse` yields on the fasta string (FASTA parsing is done
by the external Biopython library, so the parsed records are taken as the
argument): every record must pass the protein alphabet check. -/
def is_protein (parsed_seq : List (List Char)) : Bool :=
  parsed_seq.all (fun seq => verify_alphabet seq proteinLetters)

/-- Model of `Blast.is_dna` over the parsed FASTA records: every record must
pass the nucleotide alphabet check. -/
def is_dna (parsed_seq : List (List Char)) : Bool :=
  parsed_seq.all (fun seq => verify_alphabet seq dnaLetters)

/-- Model of `Blast.is_protein_and_not_dna`: a string classified as DNA is
rejected, otherwise the protein check decides. -/
def is_protein_and_not_dna (parsed_seq : List (List Char)) : Bool :=
  if is_dna parsed_seq then false else is_protein parsed_seq

/-- The `is_exe` helper inside `is_installed`:
`os.path.isfile(fpath) and os.access(fpath, os.X_OK)`. -/
def is_exe (w : World) (fpath : List Char) : Bool :=
  w.isfile fpath && w.access_x_ok fpath

/-- Head part of `os.path.split(p)` on POSIX before slash-stripping:
everything up to and including the last slash. -/
def lastSlashHead (p : List Char) : List Char :=
  (p.reverse.dropWhile (fun c => !(c == '/'))).reverse

/-- Finishing step of `os.path.split(p)`: strip trailing slashes from the
head unless the head consists only of slashes. -/
def pySplitHead (p : List Char) : List Char :=
  if lastSlashHead p ≠ [] ∧ ¬ (lastSlashHead p).all (fun c => c == '/') then
    ((lastSlashHead p).reverse.dropWhile (fun c => c == '/')).reverse
  else lastSlashHead p

/-- POSIX `os.path.join(a, b)`: `b` if it is absolute, otherwise `a` and `b`
glued with a slash unless `a` is empty or already ends in one. -/
def pyJoin (a b : List Char) : List Char :=
  if b.head? = some '/' then b
  else if a = [] ∨ a.getLast? = some '/' then a ++ b
  else a ++ '/' :: b

/-- PATH scan of `is_installed`: return the first join of a PATH directory
with the program that is an executable file, else `False`. -/
def searchPath (w : World) (program : List Char) : List (List Char) → InstallResult
  | [] => .boolRes false
  | path :: rest =>
    if is_exe w (pyJoin path program) then .pathRes (pyJoin path program)
    else searchPath w program rest

/-- Model of the module-level `is_installed`: a program with a directory
component is tested directly with `is_exe`, a bare name is searched for in
the directories of `PATH` (split on `os.pathsep`, i.e. a colon). -/
def is_installed (w : World) (program : List Char) : InstallResult :=
  if pySplitHead program ≠ [] then .boolRes (is_exe w program)
  else searchPath w program (splitChars (fun c => c == ':') w.pathEnv)

/-- Database index-file extensions `Blast.mkblastdb` checks for a dbtype. -/
def file_extensions (dbtype : List Char) : List (List Char) :=
  if dbtype = "prot".toList then
    [".pdb".toList, ".phr".toList, ".pin".toList, ".pot".toList,
      ".psq".toList, ".ptf".toList, ".pto".toList]
  else
    [".ndb".toList, ".nhr".toList, ".nin".toList, ".not".toList,
      ".nsq".toList, ".ntf".toList, ".nto".toList]

/-- Model of `Blast.mkblastdb`.  The result pairs the normal-or-raised
outcome with a flag recording whether a subprocess was spawned (`title` and
`taxid` only extend the command line, so they do not appear in the model).
After the run, the code asserts that stderr is empty and that the return
code is zero. -/
def mkblastdb (w : World) (file dbtype : List Char) (overwrite : Bool) :
    Except PyError Unit × Bool :=
  if ¬ w.isfile file then (.error .assertionError, false)
  else if ' ' ∈ file then (.error .assertionError, false)
  else if ¬ (dbtype = "prot".toList ∨ dbtype = "nucl".toList) then
    (.error .assertionError, false)
  else if ¬ overwrite ∧ (file_extensions dbtype).all (fun ext => w.isfile (file ++ ext)) then
    (.ok (), false)
  else if w.run.stderr ≠ [] then (.error .assertionError, true)
  else if w.run.returncode ≠ 0 then (.error .assertionError, true)
  else (.ok (), true)

/-- Valid modes of `Blast.blast`. -/
def blastModes : List (List Char) :=
  ["blastp".toList, "blastn".toList, "blastx".toList, "tblastn".toList]

/-- Model of `Blast.blast`.  `db` is the list of database paths (a single
string argument is wrapped into a one-element list by the code).  The query
is staged through a temporary file and does not influence the outcome, so
only the checks appear: mode and db validation, kwargs cleaning, then the
shell invocation; after it only the return code is asserted to be zero, and
the stdout of the subprocess is returned right-stripped. -/
def blast (w : World) (db : List (List Char)) (mode : List Char)
    (kwargs : List (List Char × List Char)) : Except PyError (List Char) × Bool :=
  if mode ∉ blastModes then (.error .assertionError, false)
  else if ¬ db.all (fun file => w.isfile file && !(file.contains ' ')) then
    (.error .assertionError, false)
  else
    match clean_kwargs kwargs with
    | none => (.error .assertionError, false)
    | some _ =>
      if w.run.returncode ≠ 0 then (.error .assertionError, true)
      else (.ok (rstrip w.run.stdout), true)

/-- Model of `Blast.blastp`: reject a non-protein query with `TypeError`
before delegating to `Blast.blast` in mode `blastp`. -/
def blastp (w : World) (parsed_seq : List (List Char)) (db : List (List Char))
    (kwargs : List (List Char × List Char)) : Except PyError (List Char) × Bool :=
  if ¬ is_protein parsed_seq then (.error .typeError, false)
  else blast w db "blastp".toList kwargs

/-- Model of `Blast.blastn`: reject a non-DNA query with `TypeError` before
delegating to `Blast.blast` in mode `blastn`. -/
def blastn (w : World) (parsed_seq : List (List Char)) (db : List (List Char))
    (kwargs : List (List Char × List Char)) : Except PyError (List Char) × Bool :=
  if ¬ is_dna parsed_seq then (.error .typeError, false)
  else blast w db "blastn".toList kwargs

/-- Model of `Blast.blastx`: reject a non-DNA query with `TypeError` before
delegating to `Blast.blast` in mode `blastx`. -/
def blastx (w : World) (parsed_seq : List (List Char)) (db : List (List Char))
    (kwargs : List (List Char × List Char)) : Except PyError (List Char) × Bool :=
  if ¬ is_dna parsed_seq then (.error .typeError, false)
  else blast w db "blastx".toList kwargs

/-- Model of `Blast.tblastn`: reject a non-protein query with `TypeError`
before delegating to `Blast.blast` in mode `tblastn`. -/
def tblastn (w : World) (parsed_seq : List (List Char)) (db : List (List Char))
    (kwargs : List (List Char × List Char)) : Except PyError (List Char) × Bool :=
  if ¬ is_protein parsed_seq then (.error .typeError, false)
  else blast w db "tblastn".toList kwargs

/-! Helper lemmas about the keyword and value character classes. -/

lemma re_valid_kw_ne_nil {k : List Char} (h : re_valid_kw k = true) : k ≠ [] := by
  cases k with
  | nil => simp [re_valid_kw] at h
  | cons c rest => simp

lemma re_valid_arg_ne_nil {v : List Char} (h : re_valid_arg v = true) : v ≠ [] := by
  cases v with
  | nil => simp [re_valid_arg] at h
  | cons c rest => simp

lemma re_valid_kw_chars {k : List Char} (h : re_valid_kw k = true) :
    ∀ c ∈ k, c = '-' ∨ ('a' ≤ c ∧ c ≤ 'z') ∨ c = '_' := by
  cases k with
  | nil => simp
  | cons a rest =>
    simp only [re_valid_kw, Bool.and_eq_true, beq_iff_eq, List.all_eq_true] at h
    obtain ⟨⟨ha, -⟩, hall⟩ := h
    intro c hc
    rcases List.mem_cons.mp hc with rfl | hc
    · exact Or.inl ha
    · have := hall c hc
      simp only [Bool.or_eq_true, Bool.and_eq_true, decide_eq_true_eq, beq_iff_eq] at this
      exact Or.inr this

lemma re_valid_arg_chars {v : List Char} (h : re_valid_arg v = true) :
    ∀ c ∈ v, ('a' ≤ c ∧ c ≤ 'z') ∨ ('A' ≤ c ∧ c ≤ 'Z') ∨ ('0' ≤ c ∧ c ≤ '9') ∨
      c = '-' ∨ c = '.' := by
  simp only [re_valid_arg, Bool.and_eq_true, List.all_eq_true] at h
  intro c hc
  have := h.2 c hc
  simp only [Bool.or_eq_true, Bool.and_eq_true, decide_eq_true_eq, beq_iff_eq] at this
  tauto

lemma kwChar_not_meta {c : Char} (h : c = '-' ∨ ('a' ≤ c ∧ c ≤ 'z') ∨ c = '_') :
    c ∉ shellMetachars := by
  intro hm
  have hm' : c ∈ [' ', '"', Char.ofNat 39, ';', '$', '/'] := hm
  fin_cases hm' <;> revert h <;> decide

lemma argChar_not_meta {c : Char}
    (h : ('a' ≤ c ∧ c ≤ 'z') ∨ ('A' ≤ c ∧ c ≤ 'Z') ∨ ('0' ≤ c ∧ c ≤ '9') ∨
      c = '-' ∨ c = '.') : c ∉ shellMetachars := by
  intro hm
  have hm' : c ∈ [' ', '"', Char.ofNat 39, ';', '$', '/'] := hm
  fin_cases hm' <;> revert h <;> decide

lemma kwChar_not_sep {c : Char} (h : c = '-' ∨ ('a' ≤ c ∧ c ≤ 'z') ∨ c = '_') :
    (c == ' ' || c == '=') = false := by
  by_contra hb
  have hb' : c = ' ' ∨ c = '=' := by
    have := Bool.not_eq_false (c == ' ' || c == '=') |>.mp hb
    simpa using this
  rcases hb' with rfl | rfl <;> revert h <;> decide

lemma argChar_not_sep {c : Char}
    (h : ('a' ≤ c ∧ c ≤ 'z') ∨ ('A' ≤ c ∧ c ≤ 'Z') ∨ ('0' ≤ c ∧ c ≤ '9') ∨
      c = '-' ∨ c = '.') : (c == ' ' || c == '=') = false := by
  by_contra hb
  have hb' : c = ' ' ∨ c = '=' := by
    have := Bool.not_eq_false (c == ' ' || c == '=') |>.mp hb
    simpa using this
  rcases hb' with rfl | rfl <;> revert h <;> decide

lemma clean_kwargs_eq_some_iff (kwargs : List (List Char × List Char)) :
    clean_kwargs kwargs = some kwargs ↔
      ∀ p ∈ kwargs, re_valid_kw p.1 = true ∧ re_valid_arg p.2 = true := by
  unfold clean_kwargs
  split
  · next h =>
    simp only [List.all_eq_true, Bool.and_eq_true] at h
    simpa using h
  · next h =>
    simp only [List.all_eq_true, Bool.and_eq_true] at h
    simpa using h

lemma clean_kwargs_eq_none_iff (kwargs : List (List Char × List Char)) :
    clean_kwargs kwargs = none ↔
      ∃ p ∈ kwargs, re_valid_kw p.1 = false ∨ re_valid_arg p.2 = false := by
  unfold clean_kwargs
  split
  · next h =>
    simp only [List.all_eq_true, Bool.and_eq_true] at h
    simp only [reduceCtorEq, false_iff, not_exists]
    intro p
    rintro ⟨hp, hb | hb⟩ <;> rcases h p hp with ⟨h1, h2⟩ <;> simp_all
  · next h =>
    simp only [List.all_eq_true, Bool.and_eq_true, not_forall] at h
    obtain ⟨p, hp, hbad⟩ := h
    simp only [true_iff]
    refine ⟨p, hp, ?_⟩
    by_contra hc
    push_neg at hc
    obtain ⟨hc1, hc2⟩ := hc
    exact hbad ⟨Bool.not_eq_false _ |>.mp hc1, Bool.not_eq_false _ |>.mp hc2⟩

/-- C1: for every dict of keyword/value string pairs, `Blast.clean_kwargs`
raises `AssertionError` exactly when some keyword does not fully match
`\-[a-z_]+` or some value does not fully match `[a-zA-Z0-9\-\.]+`, and
otherwise returns the dict unchanged; consequently every keyword and value
it accepts contains no shell metacharacter (no space, quote, semicolon,
dollar sign or slash). -/
theorem c1_clean_kwargs_validation (kwargs : List (List Char × List Char)) :
    (clean_kwargs kwargs = none ↔
      ∃ p ∈ kwargs, re_valid_kw p.1 = false ∨ re_valid_arg p.2 = false)
    ∧ (clean_kwargs kwargs ≠ none → clean_kwargs kwargs = some kwargs)
    ∧ (clean_kwargs kwargs = some kwargs →
        ∀ p ∈ kwargs, ∀ c, c ∈ p.1 ∨ c ∈ p.2 → c ∉ shellMetachars) := by
  refine ⟨clean_kwargs_eq_none_iff kwargs, ?_, ?_⟩
  · intro h
    by_cases hc : kwargs.all (fun p => re_valid_kw p.1 && re_valid_arg p.2) = true
    · simp [clean_kwargs, hc]
    · simp [clean_kwargs, hc] at h
  · intro hsome p hp c hc
    obtain ⟨hk, ha⟩ := (clean_kwargs_eq_some_iff kwargs).mp hsome p hp
    rcases hc with hc | hc
    · exact kwChar_not_meta (re_valid_kw_chars hk c hc)
    · exact argChar_not_meta (re_valid_arg_chars ha c hc)

/-- Witness for C1: the dict mapping -evalue to 1e-5 is accepted unchanged,
and one of its characters is indeed no shell metacharacter. -/
theorem c1_clean_kwargs_validation_witness :
    clean_kwargs [("-evalue".toList, "1e-5".toList)] =
      some [("-evalue".toList, "1e-5".toList)]
    ∧ 'e' ∉ shellMetachars :=
  ⟨(c1_clean_kwargs_validation [("-evalue".toList, "1e-5".toList)]).2.1 (by decide),
   (c1_clean_kwargs_validation [("-evalue".toList, "1e-5".toList)]).2.2 (by decide)
     ("-evalue".toList, "1e-5".toList) (by decide) 'e' (Or.inl (by decide))⟩

/-- C2: for every input string, `Blast.is_protein` returns `True` exactly
when every letter of every parsed FASTA record belongs to the protein
alphabet `ACDEFGHIKLMNPQRSTVWY`, and `Blast.is_dna` returns `True` exactly
when every letter of every parsed record belongs to the nucleotide alphabet
`GATCRYWSMKHBVDN`; both membership tests are case-sensitive. -/
theorem c2_alphabet_classification (parse : List Char → List (List Char))
    (fasta_string : List Char) :
    (is_protein (parse fasta_string) = true ↔
      ∀ seq ∈ parse fasta_string, ∀ letter ∈ seq, letter ∈ proteinLetters)
    ∧ (is_dna (parse fasta_string) = true ↔
      ∀ seq ∈ parse fasta_string, ∀ letter ∈ seq, letter ∈ dnaLetters) := by
  constructor <;> simp [is_protein, is_dna, verify_alphabet, List.all_eq_true]

/-- Witness for C2 on concrete records: AC is accepted as protein and GT as
DNA. -/
theorem c2_alphabet_classification_witness :
    is_protein [['A', 'C']] = true ∧ is_dna [['G', 'T']] = true :=
  ⟨(c2_alphabet_classification (fun _ => [['A', 'C']]) []).1.mpr (by decide),
   (c2_alphabet_classification (fun _ => [['G', 'T']]) []).2.mpr (by decide)⟩

/-- Counterexample to C8: a FASTA record consisting of the single letter B
(the IUPAC nucleotide ambiguity code, parsed from a fasta string such as a
one-record file with sequence B) is classified as DNA but not as protein,
because B is missing from the protein alphabet. -/
theorem c8_counterexample_dna_not_protein :
    is_dna [['B']] = true ∧ is_protein [['B']] = false := by decide

/-- C8 amended: for every fasta string whose parsed records avoid the letter
B, a string classified as DNA is also classified as protein — B is the only
letter of the nucleotide alphabet missing from the protein alphabet. -/
theorem c8_amended_dna_is_protein (parse : List Char → List (List Char))
    (fasta_string : List Char)
    (hB : ∀ seq ∈ parse fasta_string, 'B' ∉ seq)
    (hdna : is_dna (parse fasta_string) = true) :
    is_protein (parse fasta_string) = true := by
  rw [is_dna, List.all_eq_true] at hdna
  rw [is_protein, List.all_eq_true]
  intro seq hseq
  have h1 := hdna seq hseq
  rw [verify_alphabet, List.all_eq_true] at h1 ⊢
  intro c hc
  have h2 : c ∈ dnaLetters := by simpa using h1 c hc
  have hne : c ≠ 'B' := fun hEq => hB seq hseq (hEq ▸ hc)
  have h3 : c ∈ proteinLetters := by
    have hmem : c ∈ ['G', 'A', 'T', 'C', 'R', 'Y', 'W', 'S', 'M', 'K', 'H', 'B',
      'V', 'D', 'N'] := h2
    fin_cases hmem <;> first | decide | exact absurd rfl hne
  simpa using h3

/-- Witness for the amended C8: the record GA is DNA without the letter B,
hence also protein. -/
theorem c8_amended_dna_is_protein_witness :
    is_protein [['G', 'A']] = true :=
  c8_amended_dna_is_protein (fun _ => [['G', 'A']]) [] (by decide) (by decide)

/-- C9: `Blast.is_protein_and_not_dna` returns `True` exactly when
`Blast.is_protein` returns `True` and `Blast.is_dna` returns `False`; on a
string with no parsed FASTA record both classifiers are vacuously `True`,
so `is_protein_and_not_dna` returns `False`. -/
theorem c9_is_protein_and_not_dna (parse : List Char → List (List Char))
    (fasta_string : List Char) :
    (is_protein_and_not_dna (parse fasta_string) = true ↔
      is_protein (parse fasta_string) = true ∧ is_dna (parse fasta_string) = false)
    ∧ (parse fasta_string = [] →
        is_protein (parse fasta_string) = true ∧ is_dna (parse fasta_string) = true ∧
        is_protein_and_not_dna (parse fasta_string) = false) := by
  constructor
  · unfold is_protein_and_not_dna
    rcases Bool.eq_false_or_eq_true (is_dna (parse fasta_string)) with hd | hd <;> simp [hd]
  · intro h
    rw [h]
    decide

/-- Witness for C9 on the empty record list (for instance the empty fasta
string): both classifiers hold vacuously and the combined one is `False`. -/
theorem c9_is_protein_and_not_dna_witness :
    is_protein ([] : List (List Char)) = true ∧ is_dna ([] : List (List Char)) = true ∧
    is_protein_and_not_dna ([] : List (List Char)) = false :=
  (c9_is_protein_and_not_dna (fun _ => []) []).2 rfl

/-! Helper lemmas about `blast` and `mkblastdb`. -/

lemma blast_fst_ne_typeError (w : World) (db : List (List Char)) (mode : List Char)
    (kwargs : List (List Char × List Char)) :
    (blast w db mode kwargs).1 ≠ .error .typeError := by
  unfold blast
  split
  · simp
  · split
    · simp
    · split
      · simp
      · split <;> simp

lemma mkblastdb_snd_true_fst (w : World) (file dbtype : List Char) (overwrite : Bool)
    (h : (mkblastdb w file dbtype overwrite).2 = true) :
    (mkblastdb w file dbtype overwrite).1 =
      if w.run.stderr ≠ [] then .error .assertionError
      else if w.run.returncode ≠ 0 then .error .assertionError
      else .ok () := by
  unfold mkblastdb at h ⊢
  split_ifs at h ⊢ <;> simp_all

lemma blast_eq_of_valid (w : World) (db : List (List Char)) (mode : List Char)
    (kwargs l : List (List Char × List Char)) (h1 : mode ∈ blastModes)
    (h2 : db.all (fun file => w.isfile file && !(file.contains ' ')) = true)
    (hck : clean_kwargs kwargs = some l) :
    blast w db mode kwargs =
      if w.run.returncode ≠ 0 then (.error .assertionError, true)
      else (.ok (rstrip w.run.stdout), true) := by
  unfold blast
  rw [if_neg (by simp [h1]), if_neg (not_not_intro h2), hck]

lemma blast_snd_true_fst (w : World) (db : List (List Char)) (mode : List Char)
    (kwargs : List (List Char × List Char)) (h : (blast w db mode kwargs).2 = true) :
    (blast w db mode kwargs).1 =
      if w.run.returncode ≠ 0 then .error .assertionError
      else .ok (rstrip w.run.stdout) := by
  by_cases h1 : mode ∈ blastModes
  · by_cases h2 : db.all (fun file => w.isfile file && !(file.contains ' ')) = true
    · cases hck : clean_kwargs kwargs with
      | none =>
        exfalso
        unfold blast at h
        rw [if_neg (by simp [h1]), if_neg (not_not_intro h2), hck] at h
        simp at h
      | some l =>
        rw [blast_eq_of_valid w db mode kwargs l h1 h2 hck]
        split_ifs <;> rfl
    · exfalso
      unfold blast at h
      rw [if_neg (by simp [h1]), if_pos h2] at h
      simp at h
  · exfalso
    unfold blast at h
    rw [if_pos h1] at h
    simp at h

/-- C5: `Blast.blastp` and `Blast.tblastn` raise `TypeError` exactly when
`is_protein` is `False` on the query, `Blast.blastn` and `Blast.blastx`
raise `TypeError` exactly when `is_dna` is `False`, and in each of these
cases the `TypeError` is raised before any subprocess is spawned (the
second component of the result records whether one was). -/
theorem c5_mode_dispatch_type_errors (w : World) (parsed_seq : List (List Char))
    (db : List (List Char)) (kwargs : List (List Char × List Char)) :
    ((blastp w parsed_seq db kwargs).1 = .error .typeError ↔
      is_protein parsed_seq = false)
    ∧ ((blastn w parsed_seq db kwargs).1 = .error .typeError ↔
      is_dna parsed_seq = false)
    ∧ ((blastx w parsed_seq db kwargs).1 = .error .typeError ↔
      is_dna parsed_seq = false)
    ∧ ((tblastn w parsed_seq db kwargs).1 = .error .typeError ↔
      is_protein parsed_seq = false)
    ∧ (is_protein parsed_seq = false → (blastp w parsed_seq db kwargs).2 = false)
    ∧ (is_dna parsed_seq = false → (blastn w parsed_seq db kwargs).2 = false)
    ∧ (is_dna parsed_seq = false → (blastx w parsed_seq db kwargs).2 = false)
    ∧ (is_protein parsed_seq = false → (tblastn w parsed_seq db kwargs).2 = false) := by
  refine ⟨?_, ?_, ?_, ?_, ?_, ?_, ?_, ?_⟩
  · cases hb : is_protein parsed_seq
    · simp [blastp, hb]
    · have h0 := blast_fst_ne_typeError w db ("blastp".toList) kwargs
      simp only [blastp, hb, Bool.true_eq_false, iff_false]
      simpa using h0
  · cases hb : is_dna parsed_seq
    · simp [blastn, hb]
    · have h0 := blast_fst_ne_typeError w db ("blastn".toList) kwargs
      simp only [blastn, hb, Bool.true_eq_false, iff_false]
      simpa using h0
  · cases hb : is_dna parsed_seq
    · simp [blastx, hb]
    · have h0 := blast_fst_ne_typeError w db ("blastx".toList) kwargs
      simp only [blastx, hb, Bool.true_eq_false, iff_false]
      simpa using h0
  · cases hb : is_protein parsed_seq
    · simp [tblastn, hb]
    · have h0 := blast_fst_ne_typeError w db ("tblastn".toList) kwargs
      simp only [tblastn, hb, Bool.true_eq_false, iff_false]
      simpa using h0
  · intro h; simp [blastp, h]
  · intro h; simp [blastn, h]
  · intro h; simp [blastx, h]
  · intro h; simp [tblastn, h]

/-- Witness for C5: a query record consisting of the digit 1 is neither
protein nor DNA, so `blastp` raises `TypeError` without any subprocess. -/
theorem c5_mode_dispatch_type_errors_witness :
    (blastp ⟨fun _ => true, fun _ => true, [], ⟨[], [], 0⟩⟩ [['1']] [] []).1 =
      .error .typeError :=
  (c5_mode_dispatch_type_errors ⟨fun _ => true, fun _ => true, [], ⟨[], [], 0⟩⟩
    [['1']] [] []).1.mpr (by decide)

/-- Counterexample to C3: `Blast.blast` does not assert on stderr.  In a
world where the spawned subprocess exits with return code 0 but writes the
text warn to stderr, `blast` completes normally and returns the stripped
stdout instead of raising `AssertionError`. -/
theorem c3_counterexample_blast_ignores_stderr :
    (blast ⟨fun _ => true, fun _ => true, [], ⟨"hit1".toList, "warn".toList, 0⟩⟩
      ["db.fna".toList] ("blastp".toList) []).1 = .ok ("hit1".toList)
    ∧ ("warn".toList : List Char) ≠ [] := by
  constructor
  · rfl
  · decide

/-- C3 amended: on every invocation that actually spawns a subprocess,
`Blast.mkblastdb` raises `AssertionError` exactly when the subprocess wrote
to stderr or exited with a nonzero return code (and completes normally
otherwise), while `Blast.blast` raises `AssertionError` exactly when the
return code is nonzero, regardless of stderr (and otherwise completes
normally, returning the stripped stdout). -/
theorem c3_amended_error_surfacing (w : World) (file dbtype : List Char)
    (overwrite : Bool) (db : List (List Char)) (mode : List Char)
    (kwargs : List (List Char × List Char)) :
    ((mkblastdb w file dbtype overwrite).2 = true →
      (((mkblastdb w file dbtype overwrite).1 = .error .assertionError ↔
          w.run.stderr ≠ [] ∨ w.run.returncode ≠ 0)
        ∧ ((mkblastdb w file dbtype overwrite).1 = .ok () ↔
          w.run.stderr = [] ∧ w.run.returncode = 0)))
    ∧ ((blast w db mode kwargs).2 = true →
      (((blast w db mode kwargs).1 = .error .assertionError ↔ w.run.returncode ≠ 0)
        ∧ ((blast w db mode kwargs).1 = .ok (rstrip w.run.stdout) ↔
          w.run.returncode = 0))) := by
  constructor
  · intro hsp
    rw [mkblastdb_snd_true_fst w file dbtype overwrite hsp]
    by_cases hs : w.run.stderr = [] <;> by_cases hr : w.run.returncode = 0 <;>
      simp [hs, hr]
  · intro hsp
    rw [blast_snd_true_fst w db mode kwargs hsp]
    by_cases hr : w.run.returncode = 0 <;> simp [hr]

/-- Witness for the amended C3: a concrete `makeblastdb` run that writes
err to stderr raises `AssertionError`. -/
theorem c3_amended_error_surfacing_witness :
    (mkblastdb ⟨fun _ => true, fun _ => true, [], ⟨[], "err".toList, 0⟩⟩
      ("x.faa".toList) ("prot".toList) true).1 = .error .assertionError :=
  ((c3_amended_error_surfacing ⟨fun _ => true, fun _ => true, [], ⟨[], "err".toList, 0⟩⟩
    ("x.faa".toList) ("prot".toList) true [] [] []).1 (by decide)).1.mpr
    (Or.inl (by decide))

/-- C4: whenever the validation of `Blast.blast` passes and the spawned
subprocess exits with return code 0, `blast` returns exactly the stdout of
the subprocess with trailing whitespace stripped (and nothing else). -/
theorem c4_blast_returns_stdout (w : World) (db : List (List Char)) (mode : List Char)
    (kwargs : List (List Char × List Char))
    (hmode : mode ∈ blastModes)
    (hdb : db.all (fun file => w.isfile file && !(file.contains ' ')) = true)
    (hkw : clean_kwargs kwargs ≠ none)
    (hrc : w.run.returncode = 0) :
    blast w db mode kwargs = (.ok (rstrip w.run.stdout), true) := by
  cases hck : clean_kwargs kwargs with
  | none => exact absurd hck hkw
  | some l =>
    rw [blast_eq_of_valid w db mode kwargs l hmode hdb hck, if_neg (by simp [hrc])]

/-- Witness for C4: a successful concrete run returns the right-stripped
stdout and a subprocess was spawned. -/
theorem c4_blast_returns_stdout_witness :
    blast ⟨fun _ => true, fun _ => true, [], ⟨"hit \n".toList, [], 0⟩⟩
      ["db.fna".toList] ("blastp".toList) [] =
      (.ok (rstrip ("hit \n".toList)), true) :=
  c4_blast_returns_stdout _ ["db.fna".toList] ("blastp".toList) []
    (by decide) (by decide) (by decide) rfl

/-! Helper lemmas for executable path resolution. -/

lemma lastSlashHead_eq_nil_iff (p : List Char) :
    lastSlashHead p = [] ↔ '/' ∉ p := by
  unfold lastSlashHead
  rw [List.reverse_eq_nil_iff, List.dropWhile_eq_nil_iff]
  constructor
  · intro h hmem
    have := h '/' (List.mem_reverse.mpr hmem)
    simp at this
  · intro h x hx
    have hxp : x ∈ p := List.mem_reverse.mp hx
    have : x ≠ '/' := fun hEq => h (hEq ▸ hxp)
    simpa using this

lemma pySplitHead_eq_nil_iff (p : List Char) :
    pySplitHead p = [] ↔ '/' ∉ p := by
  unfold pySplitHead
  split
  · next h =>
    obtain ⟨h1, h2⟩ := h
    constructor
    · intro hres
      exfalso
      rw [List.reverse_eq_nil_iff, List.dropWhile_eq_nil_iff] at hres
      apply h2
      rw [List.all_eq_true]
      intro x hx
      exact hres x (List.mem_reverse.mpr hx)
    · intro hnp
      exact absurd ((lastSlashHead_eq_nil_iff p).mpr hnp) h1
  · next h =>
    exact lastSlashHead_eq_nil_iff p

lemma searchPath_eq_find (w : World) (program : List Char) (dirs : List (List Char)) :
    searchPath w program dirs =
      match dirs.find? (fun path => is_exe w (pyJoin path program)) with
      | some path => .pathRes (pyJoin path program)
      | none => .boolRes false := by
  induction dirs with
  | nil => rfl
  | cons d rest ih =>
    by_cases hd : is_exe w (pyJoin d program) = true
    · simp [searchPath, List.find?, hd]
    · simp [searchPath, List.find?, hd, ih]

/-- C7: `is_installed` resolves a program with a directory component by
testing that very path for being an existing executable regular file, and a
bare command name by scanning the directories of the `PATH` environment
variable in order, returning the first join that is an existing executable
regular file, or `False` when no entry qualifies. -/
theorem c7_is_installed_resolution (w : World) (program : List Char) :
    is_installed w program =
      if '/' ∈ program then .boolRes (is_exe w program)
      else
        match (splitChars (fun c => c == ':') w.pathEnv).find?
            (fun path => is_exe w (pyJoin path program)) with
        | some path => .pathRes (pyJoin path program)
        | none => .boolRes false := by
  unfold is_installed
  by_cases h : '/' ∈ program
  · rw [if_pos h, if_pos (fun hnil => (pySplitHead_eq_nil_iff program).mp hnil h)]
  · rw [if_neg h, if_neg (by simpa using (pySplitHead_eq_nil_iff program).mpr h)]
    exact searchPath_eq_find w program (splitChars (fun c => c == ':') w.pathEnv)

/-- Witness for C7 on both branches: a program name with a slash resolves
directly, a bare name is found in the second `PATH` directory. -/
theorem c7_is_installed_resolution_witness :
    is_installed ⟨fun q => q = "/opt/x".toList ∨ q = "/b/x".toList,
        fun _ => true, "/a:/b".toList, ⟨[], [], 0⟩⟩ ("/opt/x".toList) =
      .boolRes true
    ∧ is_installed ⟨fun q => q = "/opt/x".toList ∨ q = "/b/x".toList,
        fun _ => true, "/a:/b".toList, ⟨[], [], 0⟩⟩ ("x".toList) =
      .pathRes ("/b/x".toList) := by
  constructor
  · rw [c7_is_installed_resolution]
    decide
  · rw [c7_is_installed_resolution]
    decide

/-- C10: calling `Blast.mkblastdb` with `overwrite=False` on an existing
blank-free file for a valid dbtype, when all seven database index files for
that dbtype already exist, returns immediately without spawning any
subprocess (the second component is `false`), so the existing database
files are left unchanged. -/
theorem c10_mkblastdb_skip_existing (w : World) (file dbtype : List Char)
    (h1 : w.isfile file = true) (h2 : ' ' ∉ file)
    (h3 : dbtype = "prot".toList ∨ dbtype = "nucl".toList)
    (h4 : ∀ ext ∈ file_extensions dbtype, w.isfile (file ++ ext) = true) :
    mkblastdb w file dbtype false = (.ok (), false) := by
  unfold mkblastdb
  rw [if_neg (not_not_intro h1), if_neg h2, if_neg (not_not_intro h3),
    if_pos ⟨by simp, List.all_eq_true.mpr h4⟩]

/-- Witness for C10: a world where the file and all seven protein index
files exist makes `mkblastdb` return without a subprocess. -/
theorem c10_mkblastdb_skip_existing_witness :
    mkblastdb ⟨fun _ => true, fun _ => true, [], ⟨[], [], 0⟩⟩
      ("a.faa".toList) ("prot".toList) false = (.ok (), false) :=
  c10_mkblastdb_skip_existing ⟨fun _ => true, fun _ => true, [], ⟨[], [], 0⟩⟩
    ("a.faa".toList) ("prot".toList) rfl (by decide) (Or.inl rfl)
    (by intro ext hext; rfl)

/-! Helper lemmas for the kwargs serialization round trip. -/

lemma splitChars_ne_nil (p : Char → Bool) (l : List Char) : splitChars p l ≠ [] := by
  induction l with
  | nil => simp [splitChars]
  | cons c rest ih =>
    simp only [splitChars]
    split
    · simp
    · cases h : splitChars p rest <;> simp

lemma splitChars_cons_not_sep (p : Char → Bool) (c : Char) (l : List Char)
    (h : p c = false) :
    splitChars p (c :: l) = (c :: (splitChars p l).headI) :: (splitChars p l).tail := by
  simp only [splitChars]
  rw [if_neg (by simp [h])]
  cases hs : splitChars p l with
  | nil => exact absurd hs (splitChars_ne_nil p l)
  | cons t ts => simp

lemma splitChars_append_clean (p : Char → Bool) (t l : List Char)
    (h : ∀ c ∈ t, p c = false) :
    splitChars p (t ++ l) = (t ++ (splitChars p l).headI) :: (splitChars p l).tail := by
  induction t with
  | nil =>
    simp only [List.nil_append]
    cases hs : splitChars p l with
    | nil => exact absurd hs (splitChars_ne_nil p l)
    | cons u us => simp
  | cons c t' ih =>
    rw [List.cons_append, splitChars_cons_not_sep p c (t' ++ l) (h c (by simp)),
      ih (fun c hc => h c (by simp [hc]))]
    simp

lemma splitChars_joinSpace (p : Char → Bool) (hsp : p ' ' = true)
    (ts : List (List Char)) (hne : ts ≠ [])
    (hclean : ∀ t ∈ ts, ∀ c ∈ t, p c = false) :
    splitChars p (joinSpace ts) = ts := by
  induction ts with
  | nil => exact absurd rfl hne
  | cons t rest ih =>
    cases rest with
    | nil =>
      show splitChars p (joinSpace [t]) = [t]
      have h0 := splitChars_append_clean p t [] (hclean t (by simp))
      simpa [splitChars, joinSpace] using h0
    | cons u rest' =>
      show splitChars p (t ++ ' ' :: joinSpace (u :: rest')) = t :: u :: rest'
      rw [splitChars_append_clean p t (' ' :: joinSpace (u :: rest'))
        (hclean t (by simp))]
      rw [show splitChars p (' ' :: joinSpace (u :: rest')) =
        [] :: splitChars p (joinSpace (u :: rest')) by simp [splitChars, hsp]]
      rw [ih (by simp) (fun x hx => hclean x (by simp [hx]))]
      simp

lemma joinSpace_ne_nil (ts : List (List Char)) (h : ts ≠ []) (hh : ts.headI ≠ []) :
    joinSpace ts ≠ [] := by
  match ts with
  | [] => exact absurd rfl h
  | [t] => simpa [joinSpace] using hh
  | t :: u :: rest => simp [joinSpace]

lemma kwargs_as_list_eq_join (d : List (List Char × List Char)) :
    kwargs_as_list d = (d.map (fun p => [p.1, p.2])).flatten := by
  induction d with
  | nil => rfl
  | cons p d' ih => obtain ⟨k, v⟩ := p; simp [kwargs_as_list, ih]

lemma kwargs_as_list_length (d : List (List Char × List Char)) :
    (kwargs_as_list d).length = 2 * d.length := by
  induction d with
  | nil => rfl
  | cons p d' ih =>
    obtain ⟨k, v⟩ := p
    simp [kwargs_as_list, ih, Nat.mul_succ]

lemma pairUp_kwargs_as_list (d : List (List Char × List Char)) :
    pairUp (kwargs_as_list d) = d := by
  induction d with
  | nil => rfl
  | cons p d' ih => obtain ⟨k, v⟩ := p; simp [kwargs_as_list, pairUp, ih]

lemma mem_kwargs_as_list (d : List (List Char × List Char)) (t : List Char) :
    t ∈ kwargs_as_list d ↔ ∃ p ∈ d, t = p.1 ∨ t = p.2 := by
  induction d with
  | nil => simp [kwargs_as_list]
  | cons p d' ih =>
    obtain ⟨k, v⟩ := p
    simp only [kwargs_as_list, List.mem_cons, ih]
    constructor
    · rintro (h1 | h1 | ⟨q, hq, hor⟩)
      · exact ⟨(k, v), Or.inl rfl, Or.inl h1⟩
      · exact ⟨(k, v), Or.inl rfl, Or.inr h1⟩
      · exact ⟨q, Or.inr hq, hor⟩
    · rintro ⟨q, rfl | hq, hor⟩
      · rcases hor with rfl | rfl
        · exact Or.inl rfl
        · exact Or.inr (Or.inl rfl)
      · exact Or.inr (Or.inr ⟨q, hq, hor⟩)

lemma foldl_dictInsert_eq_append (l acc : List (List Char × List Char))
    (h : ((acc ++ l).map Prod.fst).Nodup) :
    l.foldl dictInsert acc = acc ++ l := by
  induction l generalizing acc with
  | nil => simp
  | cons kv rest ih =>
    have hnotin : kv.1 ∉ acc.map Prod.fst := by
      intro hmem
      rw [List.map_append] at h
      exact (List.nodup_append.mp h).2.2 hmem (by simp)
    have hins : dictInsert acc kv = acc ++ [kv] := by
      unfold dictInsert
      rw [if_neg]
      intro hany
      obtain ⟨q, hq, hqe⟩ := List.any_eq_true.mp hany
      exact hnotin (List.mem_map.mpr ⟨q, hq, of_decide_eq_true hqe⟩)
    rw [List.foldl_cons, hins, ih (acc ++ [kv]) (by simpa using h)]
    simp

lemma dictOfPairs_eq_self (d : List (List Char × List Char))
    (h : (d.map Prod.fst).Nodup) : dictOfPairs d = d := by
  have h0 := foldl_dictInsert_eq_append d [] (by simpa using h)
  simpa [dictOfPairs] using h0

/-- C6: serialization and parsing of keyword arguments round-trip.  For a
dict accepted by `Blast.clean_kwargs` (with distinct keys, as every Python
dict has), `Blast.kwargs_as_list` is the flat list alternating each keyword
with its value in dict order, and `Blast.parse_kwarg_string` applied to the
space-joined form of that list returns the dict back. -/
theorem c6_kwargs_roundtrip (d : List (List Char × List Char))
    (hclean : clean_kwargs d = some d)
    (hnodup : (d.map Prod.fst).Nodup) :
    kwargs_as_list d = (d.map (fun p => [p.1, p.2])).flatten
    ∧ parse_kwarg_string (joinSpace (kwargs_as_list d)) = some d := by
  refine ⟨kwargs_as_list_eq_join d, ?_⟩
  have hvalid := (clean_kwargs_eq_some_iff d).mp hclean
  have hclean_tok : ∀ t ∈ kwargs_as_list d, ∀ c ∈ t,
      (c == ' ' || c == '=') = false := by
    intro t ht c hc
    obtain ⟨p, hp, hor⟩ := (mem_kwargs_as_list d t).mp ht
    obtain ⟨hk, ha⟩ := hvalid p hp
    rcases hor with rfl | rfl
    · exact kwChar_not_sep (re_valid_kw_chars hk c hc)
    · exact argChar_not_sep (re_valid_arg_chars ha c hc)
  cases d with
  | nil => rfl
  | cons p d' =>
    obtain ⟨k, v⟩ := p
    have hkvalid := hvalid (k, v) (by simp)
    have hkne : k ≠ [] := re_valid_kw_ne_nil hkvalid.1
    have hne : kwargs_as_list ((k, v) :: d') ≠ [] := by simp [kwargs_as_list]
    have hjne : joinSpace (kwargs_as_list ((k, v) :: d')) ≠ [] :=
      joinSpace_ne_nil _ hne hkne
    unfold parse_kwarg_string
    rw [if_neg hjne,
      splitChars_joinSpace (fun c => c == ' ' || c == '=') rfl _ hne hclean_tok,
      if_neg (by simp [kwargs_as_list_length, Nat.mul_mod_right]),
      pairUp_kwargs_as_list, dictOfPairs_eq_self _ hnodup, hclean]

/-- Witness for C6: a two-entry dict of typical BLAST flags survives the
round trip through space-joined serialization and reparsing. -/
theorem c6_kwargs_roundtrip_witness :
    parse_kwarg_string (joinSpace (kwargs_as_list
      [("-evalue".toList, "1e-5".toList), ("-num_threads".toList, "4".toList)])) =
      some [("-evalue".toList, "1e-5".toList), ("-num_threads".toList, "4".toList)] :=
  (c6_kwargs_roundtrip
    [("-evalue".toList, "1e-5".toList), ("-num_threads".toList, "4".toList)]
    (by decide) (by decide)).2
